import Mathlib

/-!
Verification development for the NetSuite Excel add-in backend
(`backend/server.py`).  Monetary amounts are embedded as rationals;
each definition below transcribes the corresponding Python code,
with the source line numbers given in the comments.
-/

/-- Snap a running total to zero when its absolute value is below one cent
(server.py 2191-2192 and 2637-2638). -/
def snapZero (q : ℚ) : ℚ := if |q| < 1 / 100 then 0 else q

/-- Round-half-to-even on a rational, the rule used by the Python builtin
round (server.py 2636 rounds the running total to two decimals). -/
def roundHalfEven (x : ℚ) : ℤ :=
if x - ⌊x⌋ < 1 / 2 then ⌊x⌋
else if 1 / 2 < x - ⌊x⌋ then ⌊x⌋ + 1
else if Even ⌊x⌋ then ⌊x⌋ else ⌊x⌋ + 1

/-- Round a currency amount to whole cents, as round(cumulative, 2) does
in server.py 2636. -/
def roundCents (q : ℚ) : ℚ := (roundHalfEven (q * 100) : ℚ) / 100

/-- One step of the running total in batch_periods_refresh
(server.py 2632-2638): add the activity, round to cents, snap to zero. -/
def periods_refresh_step (c a : ℚ) : ℚ := snapZero (roundCents (c + a))

/-- One step of the running total in batch_full_year_refresh
(server.py 2185-2192): add the activity, snap to zero (no rounding there). -/
def full_year_step (c a : ℚ) : ℚ := snapZero (c + a)

/-- The list of cumulative balances emitted while walking the ordered
activity list with a given step function (the loops at server.py
2182-2199 and 2630-2643). -/
def runningBalances (step : ℚ → ℚ → ℚ) : ℚ → List ℚ → List ℚ
| _, [] => []
| c, a :: as => step c a :: runningBalances step (step c a) as

/-- Cumulative Balance-Sheet balances emitted by batch_periods_refresh
(server.py 2620-2643). -/
def periods_refresh_cumulatives (opening : ℚ) (acts : List ℚ) : List ℚ :=
runningBalances periods_refresh_step opening acts

/-- Cumulative Balance-Sheet balances emitted by batch_full_year_refresh
(server.py 2174-2201). -/
def full_year_cumulatives (opening : ℚ) (acts : List ℚ) : List ℚ :=
runningBalances full_year_step opening acts

/-- The ideal prefix-sum sequence described by the specification:
each emitted value is the previous one plus the period activity. -/
def specCumulatives : ℚ → List ℚ → List ℚ
| _, [] => []
| c, a :: as => (c + a) :: specCumulatives (c + a) as

/-- An amount that is a whole number of cents. -/
def wholeCents (q : ℚ) : Prop := ∃ k : ℤ, q = (k : ℚ) / 100

/-- The six aggregate sums and the plug value computed by the /cta
endpoint (server.py 5614-5637). -/
structure CTAComponents where
total_assets : ℚ
total_liabilities : ℚ
total_equity : ℚ
posted_equity : ℚ
retained_earnings : ℚ
net_income : ℚ
value : ℚ
deriving DecidableEq

/-- The arithmetic tail of calculate_cta (server.py 5614-5637):
total_equity = assets - liabilities, retained_earnings = prior_pl +
posted_re, and the CTA plug is the residual. -/
def calculate_cta (total_assets total_liabilities posted_equity prior_pl posted_re net_income : ℚ) : CTAComponents :=
{ total_assets := total_assets
  total_liabilities := total_liabilities
  total_equity := total_assets - total_liabilities
  posted_equity := posted_equity
  retained_earnings := prior_pl + posted_re
  net_income := net_income
  value := (total_assets - total_liabilities) - posted_equity - (prior_pl + posted_re) - net_income }

/-- Modelled from the spec: the account-type sets live in constants.py,
which is not among the provided sources (server.py imports AccountType,
PL_TYPES_SQL and INCOME_TYPES_SQL from it at lines 18-21).  Following
spec section 4.1, the Income-Statement set is the closed five-element
set below. -/
def INCOME_STATEMENT_TYPES : List String :=
["Income", "OtherIncome", "CostOfGoodsSold", "Expense", "OtherExpense"]

/-- Modelled from the spec: PL_TYPES_SQL (constants.py, absent from the
sources) is the Income-Statement type set used as the P-and-L filter in
every query of server.py. -/
def PL_TYPES : List String := INCOME_STATEMENT_TYPES

/-- The two classifications an account type can receive. -/
inductive Classification where
| IncomeStatement : Classification
| BalanceSheet : Classification
deriving DecidableEq

/-- Modelled from the spec: AccountType.is_balance_sheet (constants.py,
absent from the sources; delegated to by is_balance_sheet_account at
server.py 133-147).  Any type outside the Income-Statement set is a
Balance-Sheet type. -/
def is_balance_sheet_account (accttype : String) : Bool :=
!(INCOME_STATEMENT_TYPES.contains accttype)

/-- The derived classification function of spec section 4.1. -/
def classify (accttype : String) : Classification :=
if is_balance_sheet_account accttype then Classification.BalanceSheet
else Classification.IncomeStatement

/-- Which exchange-rate reference a query passes to BUILTIN.CONSOLIDATE:
the posting period of each transaction, a fixed target reporting
period, or no conversion at all (raw tal.amount). -/
inductive RateBasis where
| postingPeriod : RateBasis
| fixedTargetPeriod : RateBasis
| unconverted : RateBasis
deriving DecidableEq

/-- Modelled from the spec: SIGN_FLIP_TYPES_SQL lives in constants.py,
which is not among the provided sources.  The set follows spec section
4.1 (Liability and Equity families) and the enumeration in the comment
at server.py 1496-1503. -/
def SIGN_FLIP_TYPES : List String :=
["AcctPay", "CredCard", "OthCurrLiab", "LongTermLiab", "DeferRevenue",
 "Equity", "RetainedEarnings"]

/-- The consolidation and sign aspects of a Balance-Sheet query shape:
the rate reference given to BUILTIN.CONSOLIDATE and the per-account-type
sign multiplier applied to each summed row. -/
structure BSQueryShape where
rateBasis : RateBasis
signMultiplier : String → ℤ

/-- build_bs_cumulative_balance_query (server.py 1305-1399): CONSOLIDATE
is called with the fixed target_period.id (line 1355) and the summed
amount carries no sign-flip CASE. -/
def build_bs_cumulative_balance_query_shape : BSQueryShape :=
⟨RateBasis.fixedTargetPeriod, fun _ => 1⟩

/-- build_bs_query_single_period (server.py 1109-1189): when the target
period id is known CONSOLIDATE uses it (lines 1150-1161); when the
period is absent from the remote table the raw tal.amount is summed
(lines 1162-1165).  Neither branch applies a sign-flip CASE. -/
def build_bs_query_single_period_shape (period_id : Option ℕ) : BSQueryShape :=
match period_id with
| some _ => ⟨RateBasis.fixedTargetPeriod, fun _ => 1⟩
| none => ⟨RateBasis.unconverted, fun _ => 1⟩

/-- build_bs_multi_period_query (server.py 1402-1547): each period
column consolidates with that column's own fixed period id and
multiplies by -1 for the SIGN_FLIP_TYPES_SQL set (lines 1506-1511). -/
def build_bs_multi_period_query_shape : BSQueryShape :=
⟨RateBasis.fixedTargetPeriod,
 fun t => if SIGN_FLIP_TYPES.contains t then -1 else 1⟩

/-- The opening-balance (prior-balance) query of batch_periods_refresh
(server.py 2571-2600): CONSOLIDATE is called with t.postingperiod
(line 2582), i.e. each transaction is converted at the rate of its own
posting period; no sign-flip CASE. -/
def periods_refresh_prior_balance_query_shape : BSQueryShape :=
⟨RateBasis.postingPeriod, fun _ => 1⟩

/-- The prior-year ending-balance query of batch_full_year_refresh
(server.py 2143-2162): CONSOLIDATE is called with t.postingperiod
(line 2149); no sign-flip CASE. -/
def full_year_refresh_prior_year_query_shape : BSQueryShape :=
⟨RateBasis.postingPeriod, fun _ => 1⟩

/-- Lookup in a Python dict modelled as an insertion-ordered
association list (first match; keys are unique whenever the list is
built with pyDictSet). -/
def pyLookup {α : Type} : List (String × α) → String → Option α
| [], _ => none
| (k0, v) :: rest, k => if k0 = k then some v else pyLookup rest k

/-- Python dict item assignment: replace the value in place if the key
exists, otherwise append the pair at the end. -/
def pyDictSet {α : Type} : List (String × α) → String → α → List (String × α)
| [], k, v => [(k, v)]
| (k0, v0) :: rest, k, v =>
  if k0 = k then (k0, v) :: rest else (k0, v0) :: pyDictSet rest k v

/-- A sequence of Python dict item assignments. -/
def pyDictSetMany {α : Type} (d : List (String × α)) (entries : List (String × α)) : List (String × α) :=
entries.foldl (fun acc e => pyDictSet acc e.1 e.2) d

/-- The balance-cache effect of batch_full_year_refresh: the cache is
reset to an empty dict (server.py 2031) before the computed entries are
written (2041-2045 and 2196-2200). -/
def full_year_refresh_cache_effect (old entries : List (String × ℚ)) : List (String × ℚ) :=
pyDictSetMany [] entries

/-- The balance-cache effect of batch_periods_refresh: entries are
written into the existing cache (server.py 2458-2460 and 2640-2642);
the cache is never cleared in this endpoint. -/
def periods_refresh_cache_effect (old entries : List (String × ℚ)) : List (String × ℚ) :=
pyDictSetMany old entries

/-- The balance-cache effect of batch_bs_periods: entries are written
into the existing cache (server.py 2941-2945); no clear. -/
def bs_periods_cache_effect (old entries : List (String × ℚ)) : List (String × ℚ) :=
pyDictSetMany old entries

/-- The balance-cache effect of batch_full_year_refresh_bs: entries are
written into the existing cache (server.py 2780-2783); no clear. -/
def full_year_refresh_bs_cache_effect (old entries : List (String × ℚ)) : List (String × ℚ) :=
pyDictSetMany old entries

/-- The balance-cache key format account:period:filters_hash
(server.py 2043, 3060). -/
def mkCacheKey (account period filters_hash : String) : String :=
account ++ ":" ++ period ++ ":" ++ filters_hash

/-- The cache-serving path of batch_balance (server.py 3029-3083).
fresh models balance_cache_timestamp being set with age below
BALANCE_CACHE_TTL.  The request is served from cache (some result) only
when the cache dict is non-empty, fresh, and every requested
(account, period) key is present; otherwise the endpoint falls through
to a full recomputation (none). -/
def batch_balance_from_cache (cache : List (String × ℚ)) (fresh : Bool)
    (accounts periods : List String) (filters_hash : String) :
    Option (List (String × List (String × ℚ))) :=
if (!cache.isEmpty) && fresh &&
    accounts.all (fun a => periods.all (fun p =>
      (pyLookup cache (mkCacheKey a p filters_hash)).isSome)) then
  some (accounts.map (fun a =>
    (a, periods.map (fun p =>
      (p, (pyLookup cache (mkCacheKey a p filters_hash)).getD 0)))))
else none

/-- A concrete pre-existing balance-cache entry, used to exhibit that a
periods refresh does not clear the cache. -/
def c5OldCache : List (String × ℚ) := [("1000:Dec 2024:::::", 5)]

/-- Concrete entries computed by a later periods refresh that does not
touch the old key. -/
def c5NewEntries : List (String × ℚ) := [("4010:Jan 2025:::::", 7)]

/-- One row of the subsidiary hierarchy query (server.py 527-531):
id, parent (None when the ERP field is null or falsy, per line 544) and
the iselimination flag. -/
structure SubRow where
id : String
parent : Option String
iselimination : Bool
deriving DecidableEq

/-- children_map lookup (server.py 549-552): the ids of the rows whose
parent field equals p, in row order. -/
def childrenOf (rows : List SubRow) (p : String) : List String :=
(rows.filter (fun r => r.parent = some p)).map (fun r => r.id)

/-- The all_subs dict entry for an id (server.py 542-547): a Python
dict assignment is last-writer-wins, so the last row with that id. -/
def lookupSub (rows : List SubRow) (i : String) : Option SubRow :=
(rows.filter (fun r => r.id = i)).getLast?

/-- The root test of server.py 556: the target is present in all_subs
and its (last-wins) parent is null. -/
def isRootTarget (rows : List SubRow) (target : String) : Bool :=
match lookupSub rows target with
| some r => r.parent.isNone
| none => false

/-- list(all_subs.keys()) (server.py 558): the row ids in first-insertion
order, without duplicates. -/
def pyDictKeysOfRows (rows : List SubRow) : List String :=
rows.foldl (fun acc r => if r.id ∈ acc then acc else acc ++ [r.id]) []

/-- The inner for-loop of the breadth-first traversal (server.py
567-571): append each child not yet collected to both hierarchy_ids
(first component) and to_process (second component). -/
def enqueueChildren : List String → List String → List String → List String × List String
| visited, queue, [] => (visited, queue)
| visited, queue, c :: cs =>
  if c ∈ visited then enqueueChildren visited queue cs
  else enqueueChildren (visited ++ [c]) (queue ++ [c]) cs

/-- The while-loop of the breadth-first traversal (server.py 565-571).
The fuel argument only bounds the number of iterations; the lemmas
below show the initial fuel used by get_subsidiaries_in_hierarchy is
never exhausted, so this equals the unbounded Python loop. -/
def bfsLoop (rows : List SubRow) : ℕ → List String → List String → List String
| _, visited, [] => visited
| 0, visited, _ :: _ => visited
| fuel + 1, visited, c :: rest =>
  let vq := enqueueChildren visited rest (childrenOf rows c)
  bfsLoop rows fuel vq.1 vq.2

/-- get_subsidiaries_in_hierarchy (server.py 502-581) on the hierarchy
rows: for the root target every subsidiary id is returned (556-559),
otherwise a breadth-first traversal from the target collects it and all
of its descendants (560-573). -/
def get_subsidiaries_in_hierarchy (rows : List SubRow) (target : String) : List String :=
if isRootTarget rows target then pyDictKeysOfRows rows
else bfsLoop rows (rows.length + 1) [target] [target]

/-- Termination measure for the traversal: the number of row ids not
yet collected plus the queue length; each loop iteration decreases it
by exactly one. -/
def bfsMeasure (rows : List SubRow) (visited queue : List String) : ℕ :=
((rows.map SubRow.id).toFinset \ visited.toFinset).card + queue.length

/-- Concrete hierarchy rows used to instantiate the hierarchy theorem:
a root, a child of the root, and an elimination child of the child. -/
def c7Rows : List SubRow :=
[⟨"1", none, false⟩, ⟨"2", some "1", false⟩, ⟨"3", some "2", true⟩]

/-- Helper for the whitespace split: accumulate the current word
(reversed) and cut at whitespace runs, like Python str.split() with no
arguments (server.py 162 does period_name.strip().split()). -/
def pySplitAux : List Char → List Char → List String
| [], cur => if cur.isEmpty then [] else [String.mk cur.reverse]
| c :: cs, cur =>
  if c.isWhitespace then
    if cur.isEmpty then pySplitAux cs []
    else String.mk cur.reverse :: pySplitAux cs []
  else pySplitAux cs (c :: cur)

/-- Python str.strip().split(): the maximal non-whitespace runs of the
string, in order. -/
def pySplitWhitespace (s : String) : List String :=
pySplitAux s.data []

/-- The first three characters of a word, lower-cased:
parts[0].lower()[:3] at server.py 166. -/
def lower3 (s : String) : String :=
String.mk ((s.data.take 3).map Char.toLower)

/-- The month_map of calculate_period_end_date (server.py 156-159). -/
def pyMonthNumber (s : String) : Option ℕ :=
if s = "jan" then some 1 else if s = "feb" then some 2
else if s = "mar" then some 3 else if s = "apr" then some 4
else if s = "may" then some 5 else if s = "jun" then some 6
else if s = "jul" then some 7 else if s = "aug" then some 8
else if s = "sep" then some 9 else if s = "oct" then some 10
else if s = "nov" then some 11 else if s = "dec" then some 12
else none

/-- Decimal digit-string to natural number; none when a non-digit
appears. -/
def digitsToNatAux : List Char → ℕ → Option ℕ
| [], acc => some acc
| c :: cs, acc =>
  if c.isDigit then digitsToNatAux cs (acc * 10 + (c.toNat - 48)) else none

/-- Python int(str) restricted to an optional sign followed by decimal
digits (int(parts[1]) at server.py 167; exotic forms such as embedded
underscores are outside this model and outside every theorem below). -/
def pyIntParse (s : String) : Option ℤ :=
match s.data with
| [] => none
| c :: cs =>
  if c = '-' then
    match cs with
    | [] => none
    | _ => (digitsToNatAux cs 0).map (fun n => -(n : ℤ))
  else if c = '+' then
    match cs with
    | [] => none
    | _ => (digitsToNatAux cs 0).map (fun n => (n : ℤ))
  else (digitsToNatAux (c :: cs) 0).map (fun n => (n : ℤ))

/-- calendar.isleap, used by calendar.monthrange (server.py 174). -/
def isleap (y : ℤ) : Bool :=
y % 4 == 0 && (y % 100 != 0 || y % 400 == 0)

/-- The last calendar day of month m of year y,
calendar.monthrange(year, month)[1] (server.py 174). -/
def daysInMonth (y : ℤ) (m : ℕ) : ℕ :=
if m = 2 then (if isleap y then 29 else 28)
else if m = 4 ∨ m = 6 ∨ m = 9 ∨ m = 11 then 30
else 31

/-- Zero-pad a number to two digits, the 02d format at server.py 177. -/
def pad2 (n : ℕ) : String := if n < 10 then "0" ++ toString n else toString n

/-- The MM/DD/YYYY string built at server.py 177 for the last day of
the named month. -/
def period_end_date_string (m : ℕ) (y : ℤ) : String :=
pad2 m ++ "/" ++ pad2 (daysInMonth y m) ++ "/" ++ toString y

/-- The parsing part of calculate_period_end_date (server.py 161-171):
strip and split the name, require exactly two parts, map the
three-letter lower-cased month prefix through month_map, parse the
year. -/
def periodNameParse (name : String) : Option (ℕ × ℤ) :=
match pySplitWhitespace name with
| [p0, p1] =>
  match pyMonthNumber (lower3 p0), pyIntParse p1 with
  | some m, some y => some (m, y)
  | _, _ => none
| _ => none

/-- calculate_period_end_date (server.py 150-180).  Years outside
1..9999 make datetime.date (inside calendar.monthrange) raise; the
except at lines 178-180 then returns None. -/
def calculate_period_end_date (name : String) : Option String :=
match periodNameParse name with
| some (m, y) =>
  if 1 ≤ y ∧ y ≤ 9999 then some (period_end_date_string m y) else none
| none => none

/-- The per-period record built by batch_balance (server.py 3140-3153). -/
structure PeriodInfo where
enddate : String
id : Option ℕ
deriving DecidableEq

/-- Python truthiness of an optional string (empty string is falsy). -/
def pyTruthyStr : Option String → Bool
| some s => s != ""
| none => false

/-- Python truthiness of an optional numeric id (zero is falsy). -/
def pyTruthyNat : Option ℕ → Bool
| some n => n != 0
| none => false

/-- The period_info construction of batch_balance (server.py
3140-3153): use the remote end date and id when both are truthy,
otherwise fall back to the locally computed end date with a null id;
a name that does not parse produces no entry. -/
def batch_balance_period_info (remoteEnd : Option String) (remoteId : Option ℕ)
    (name : String) : Option PeriodInfo :=
if pyTruthyStr remoteEnd && pyTruthyNat remoteId then
  some ⟨remoteEnd.getD "", remoteId⟩
else
  match calculate_period_end_date name with
  | some d => some ⟨d, none⟩
  | none => none

/-- The zero-fill of one account entry (server.py 3281-3283): every
requested period missing from the computed map is set to 0. -/
def zero_fill_account : List (String × ℚ) → List String → List (String × ℚ)
| pmap, [] => pmap
| pmap, p :: ps =>
  zero_fill_account (if (pyLookup pmap p).isSome then pmap else pmap ++ [(p, 0)]) ps

/-- The zero-fill of batch_balance (server.py 3277-3283): ensure every
requested account has an entry and every requested period a value. -/
def zero_fill : List String → List String → List (String × List (String × ℚ)) → List (String × List (String × ℚ))
| [], _, bal => bal
| a :: as, periods, bal =>
  zero_fill as periods
    (pyDictSet bal a (zero_fill_account ((pyLookup bal a).getD []) periods))

/-- The module-level names bound in server.py: the imports (lines
6-21), the module globals (23-91, 499) and every def statement of the
file.  build_full_year_bs_query is not among them, and is defined
nowhere else in the repository either. -/
def serverGlobalNames : List String :=
["Flask", "jsonify", "request", "CORS", "json", "requests", "OAuth1",
 "sys", "datetime", "date_parser", "relativedelta", "ThreadPoolExecutor",
 "as_completed", "AccountType", "PL_TYPES_SQL", "SIGN_FLIP_TYPES_SQL",
 "INCOME_TYPES_SQL", "BS_ASSET_TYPES_SQL", "BS_LIABILITY_TYPES_SQL",
 "BS_EQUITY_TYPES_SQL", "app", "lookup_cache", "cache_loaded",
 "balance_cache", "balance_cache_timestamp", "BALANCE_CACHE_TTL",
 "fiscal_year_cache", "bs_activity_cache", "bs_activity_cache_timestamp",
 "bs_account_set", "account_title_cache", "default_subsidiary_id",
 "DEFAULT_ACCOUNTING_BOOK", "config", "account_id", "suiteql_url", "auth",
 "subsidiary_hierarchy_cache", "query_netsuite", "escape_sql",
 "is_balance_sheet_account", "calculate_period_end_date",
 "get_period_dates_from_name", "get_months_between_periods",
 "generate_quarterly_chunks", "load_lookup_cache", "load_default_subsidiary",
 "get_subsidiaries_in_hierarchy", "convert_name_to_id", "home", "health",
 "debug_budget_schema", "debug_budget_categories", "check_permissions",
 "admin_restart", "search_accounts", "build_pl_query",
 "build_bs_query_single_period", "build_bs_query",
 "build_bs_cumulative_balance_query", "build_bs_multi_period_query",
 "build_exchange_rates_query_DEPRECATED",
 "build_full_year_bs_opening_balance_query",
 "build_full_year_bs_activity_query", "build_full_year_pl_query",
 "build_full_year_pl_query_pivoted", "run_paginated_suiteql",
 "convert_month_to_period_name", "extract_year_from_period",
 "batch_full_year_refresh", "batch_periods_refresh",
 "batch_full_year_refresh_bs", "batch_bs_periods", "batch_balance",
 "get_department_id", "get_account_type_deprecated", "get_account_type",
 "_get_account_type_impl", "batch_get_account_types",
 "get_account_parent_deprecated", "get_account_parent",
 "_get_account_parent_impl", "preload_account_titles",
 "get_account_name_deprecated", "get_account_name",
 "_get_account_name_impl", "get_balance", "get_budget", "get_all_budgets",
 "get_transactions", "test_connection", "get_all_accounts",
 "get_accounting_books", "get_all_lookups", "get_budget_categories",
 "get_currencies", "get_fiscal_year_for_period", "build_segment_filter",
 "resolve_subsidiary_id", "build_consolidate_amount",
 "calculate_retained_earnings", "calculate_net_income", "calculate_cta"]

/-- Python global-name resolution: a name not bound at module level
raises NameError when evaluated. -/
def python_global_lookup (n : String) : Except String Unit :=
if serverGlobalNames.contains n then Except.ok ()
else Except.error ("NameError: name " ++ n ++ " is not defined")

/-- One row of the pivoted full-year P-and-L result (server.py
2007-2024): account number, account type and the twelve month values. -/
structure PLRow where
number : String
accttype : String
months : List (String × ℚ)
deriving DecidableEq

/-- The balances dict built from the P-and-L rows (server.py
2007-2024). -/
def pl_balances_of_rows (plRows : List PLRow) : List (String × List (String × ℚ)) :=
pyDictSetMany [] (plRows.map (fun r => (r.number, r.months)))

/-- Merging the Balance-Sheet cumulative entries into balances
(server.py 2175-2195; unreachable in batch_full_year_refresh, see
below). -/
def mergeBalances (bal extra : List (String × List (String × ℚ))) : List (String × List (String × ℚ)) :=
pyDictSetMany bal extra

/-- The try-block of the Balance-Sheet branch of
batch_full_year_refresh (server.py 2082-2204).  Its first statement
evaluates build_full_year_bs_query (line 2083), a name bound nowhere in
the module, so the branch always raises NameError and the rest of the
block (2084-2204) never runs. -/
def batch_full_year_refresh_bs_branch (bsData : List (String × List (String × ℚ))) :
    Except String (List (String × List (String × ℚ))) :=
match python_global_lookup "build_full_year_bs_query" with
| Except.error e => Except.error e
| Except.ok _ => Except.ok bsData

/-- The HTTP outcome of batch_full_year_refresh. -/
structure FullYearResponse where
httpOk : Bool
balances : List (String × List (String × ℚ))
deriving DecidableEq

/-- batch_full_year_refresh (server.py 1875-2258) after the P-and-L
query succeeded: with skip_bs the P-and-L balances are returned at once
(2055-2070); otherwise the Balance-Sheet branch runs inside
try/except (2082-2210) and on any exception the already-computed
P-and-L balances are still returned with HTTP 200 (2206-2248). -/
def batch_full_year_refresh_model (plRows : List PLRow) (skip_bs : Bool)
    (bsData : List (String × List (String × ℚ))) : FullYearResponse :=
if skip_bs then ⟨true, pl_balances_of_rows plRows⟩
else
  match batch_full_year_refresh_bs_branch bsData with
  | Except.ok bs => ⟨true, mergeBalances (pl_balances_of_rows plRows) bs⟩
  | Except.error _ => ⟨true, pl_balances_of_rows plRows⟩

/-- Concrete P-and-L row used to instantiate the full-year-refresh
theorem. -/
def c10PLRows : List PLRow := [⟨"4010", "Income", [("Jan 2025", 5)]⟩]

/-! ## Lemmas about the running-balance folds -/

theorem runningBalances_length (step : ℚ → ℚ → ℚ) (c : ℚ) (l : List ℚ) :
    (runningBalances step c l).length = l.length := by
  induction l generalizing c with
  | nil => rfl
  | cons a as ih => simp [runningBalances, ih]

theorem specCumulatives_length (c : ℚ) (l : List ℚ) :
    (specCumulatives c l).length = l.length := by
  induction l generalizing c with
  | nil => rfl
  | cons a as ih => simp [specCumulatives, ih]

theorem roundHalfEven_intCast (k : ℤ) : roundHalfEven (k : ℚ) = k := by
  simp [roundHalfEven]

theorem wholeCents_add {p q : ℚ} (hp : wholeCents p) (hq : wholeCents q) :
    wholeCents (p + q) := by
  obtain ⟨a, ha⟩ := hp
  obtain ⟨b, hb⟩ := hq
  exact ⟨a + b, by push_cast [ha, hb]; ring⟩

theorem roundCents_of_wholeCents {q : ℚ} (h : wholeCents q) : roundCents q = q := by
  obtain ⟨k, hk⟩ := h
  have h100 : q * 100 = (k : ℚ) := by rw [hk]; field_simp
  rw [roundCents, h100, roundHalfEven_intCast, ← hk]

theorem snapZero_of_wholeCents {q : ℚ} (h : wholeCents q) : snapZero q = q := by
  obtain ⟨k, hk⟩ := h
  rw [snapZero]
  split
  · rename_i hlt
    rw [hk] at hlt ⊢
    have hk0 : k = 0 := by
      by_contra hne
      have h1 : (1 : ℚ) ≤ |(k : ℚ)| := by
        have := Int.one_le_abs (by omega : k ≠ 0)
        calc (1 : ℚ) = ((1 : ℤ) : ℚ) := by norm_num
        _ ≤ ((|k| : ℤ) : ℚ) := by exact_mod_cast this
        _ = |(k : ℚ)| := by push_cast; ring
      rw [abs_div, abs_of_pos (by norm_num : (0 : ℚ) < 100)] at hlt
      rw [div_lt_div_iff (by norm_num) (by norm_num)] at hlt
      nlinarith
    simp [hk0]
  · rfl

theorem periods_refresh_step_of_wholeCents {c a : ℚ} (hc : wholeCents c)
    (ha : wholeCents a) : periods_refresh_step c a = c + a := by
  have h := wholeCents_add hc ha
  rw [periods_refresh_step, roundCents_of_wholeCents h, snapZero_of_wholeCents h]

theorem full_year_step_of_wholeCents {c a : ℚ} (hc : wholeCents c)
    (ha : wholeCents a) : full_year_step c a = c + a := by
  have h := wholeCents_add hc ha
  rw [full_year_step, snapZero_of_wholeCents h]

theorem runningBalances_eq_spec (step : ℚ → ℚ → ℚ)
    (hstep : ∀ c a, wholeCents c → wholeCents a → step c a = c + a)
    (c : ℚ) (l : List ℚ) (hc : wholeCents c) (hl : ∀ a ∈ l, wholeCents a) :
    runningBalances step c l = specCumulatives c l := by
  induction l generalizing c with
  | nil => rfl
  | cons a as ih =>
    have ha : wholeCents a := hl a (by simp)
    have hca : wholeCents (c + a) := wholeCents_add hc ha
    have hstepca : step c a = c + a := hstep c a hc ha
    simp only [runningBalances, specCumulatives, hstepca]
    rw [ih (c + a) hca (fun x hx => hl x (by simp [hx]))]

theorem specCumulatives_get (c : ℚ) (l : List ℚ) :
    ∀ i (h : i < (specCumulatives c l).length),
      (specCumulatives c l).get ⟨i, h⟩ =
        (if h0 : i = 0 then c
         else (specCumulatives c l).get ⟨i - 1, by omega⟩) +
        l.get ⟨i, by rw [specCumulatives_length] at h; exact h⟩ := by
  induction l generalizing c with
  | nil => intro i h; simp [specCumulatives] at h
  | cons a as ih =>
    intro i h
    match i with
    | 0 => simp [specCumulatives]
    | Nat.succ j =>
      have hj : j < (specCumulatives (c + a) as).length := by
        simp only [specCumulatives, List.length_cons] at h
        omega
      have ihj := ih (c + a) j hj
      simp only [specCumulatives, List.get_cons_succ] at ihj ⊢
      rw [ihj]
      match j with
      | 0 => simp [specCumulatives]
      | Nat.succ m => simp [specCumulatives]

/-! ## Claim theorems C1, C3, C6 -/

/-- C1 (counterexample).  The claim asserts
cumulative(P1) == openingBalance + activity(P1) exactly; with opening
balance 0 and a single period whose activity is 0.004, both refresh
flows emit 0 (the sub-cent running total is snapped to zero at
server.py 2191-2192 and 2636-2638), and 0 differs from 0 + 0.004. -/
theorem c1_prefix_sum_counterexample :
    periods_refresh_cumulatives 0 [(1 : ℚ) / 250] = [0] ∧
    full_year_cumulatives 0 [(1 : ℚ) / 250] = [0] ∧
    (0 : ℚ) ≠ 0 + (1 : ℚ) / 250 := by
  refine ⟨?_, ?_, by norm_num⟩
  · simp only [periods_refresh_cumulatives, runningBalances, periods_refresh_step,
      roundCents, roundHalfEven, snapZero]
    norm_num
  · simp only [full_year_cumulatives, runningBalances, full_year_step, snapZero]
    norm_num [abs_of_pos]

/-- C1 (amended).  When the opening balance and every period activity
are whole numbers of cents, both bulk-refresh flows emit exactly the
prefix-sum sequence: cumulative(P1) = openingBalance + activity(P1) and
cumulative(Pi) = cumulative(Pi-1) + activity(Pi) for all later periods.
In general the rounding to cents (server.py 2636, periods refresh only)
and the snap of sub-cent running totals to zero (2191-2192, 2637-2638)
are applied to every running total before it is emitted. -/
theorem c1_prefix_sum_amended (opening : ℚ) (acts : List ℚ)
    (hop : wholeCents opening) (hacts : ∀ a ∈ acts, wholeCents a) :
    periods_refresh_cumulatives opening acts = specCumulatives opening acts ∧
    full_year_cumulatives opening acts = specCumulatives opening acts ∧
    ∀ i (h : i < (specCumulatives opening acts).length),
      (specCumulatives opening acts).get ⟨i, h⟩ =
        (if h0 : i = 0 then opening
         else (specCumulatives opening acts).get ⟨i - 1, by omega⟩) +
        acts.get ⟨i, by rw [specCumulatives_length] at h; exact h⟩ := by
  refine ⟨?_, ?_, specCumulatives_get opening acts⟩
  · exact runningBalances_eq_spec periods_refresh_step
      (fun c a hc ha => periods_refresh_step_of_wholeCents hc ha)
      opening acts hop hacts
  · exact runningBalances_eq_spec full_year_step
      (fun c a hc ha => full_year_step_of_wholeCents hc ha)
      opening acts hop hacts

/-- C1 (witness): the amended theorem applied to the concrete opening
balance 0.03 and activities 0.05 and -0.08. -/
theorem c1_prefix_sum_amended_witness :
    wholeCents ((3 : ℚ) / 100) ∧
    periods_refresh_cumulatives ((3 : ℚ) / 100) [(5 : ℚ) / 100, -(8 : ℚ) / 100] =
      specCumulatives ((3 : ℚ) / 100) [(5 : ℚ) / 100, -(8 : ℚ) / 100] := by
  refine ⟨⟨3, by norm_num⟩, ?_⟩
  refine (c1_prefix_sum_amended ((3 : ℚ) / 100) [(5 : ℚ) / 100, -(8 : ℚ) / 100]
    ⟨3, by norm_num⟩ ?_).1
  intro a ha
  simp only [List.mem_cons, List.not_mem_nil, or_false] at ha
  rcases ha with h | h
  · exact ⟨5, by rw [h]; norm_num⟩
  · exact ⟨-8, by rw [h]; norm_num⟩

/-- C3.  The CTA plug identity: for any six aggregate inputs, the
components returned by calculate_cta (server.py 5614-5661) satisfy
TotalAssets - TotalLiabilities = PostedEquity + RetainedEarnings +
NetIncome + CTA exactly, with RetainedEarnings = prior_pl + posted_re. -/
theorem c3_cta_plug_identity (total_assets total_liabilities posted_equity prior_pl posted_re net_income : ℚ) :
    (calculate_cta total_assets total_liabilities posted_equity prior_pl posted_re net_income).total_assets -
      (calculate_cta total_assets total_liabilities posted_equity prior_pl posted_re net_income).total_liabilities =
    (calculate_cta total_assets total_liabilities posted_equity prior_pl posted_re net_income).posted_equity +
      (calculate_cta total_assets total_liabilities posted_equity prior_pl posted_re net_income).retained_earnings +
      (calculate_cta total_assets total_liabilities posted_equity prior_pl posted_re net_income).net_income +
      (calculate_cta total_assets total_liabilities posted_equity prior_pl posted_re net_income).value ∧
    (calculate_cta total_assets total_liabilities posted_equity prior_pl posted_re net_income).retained_earnings =
      prior_pl + posted_re := by
  constructor
  · simp only [calculate_cta]; ring
  · rfl

/-- C6.  Classification is total and two-valued: every account-type
string maps to exactly one of IncomeStatement and BalanceSheet, the
IncomeStatement side is exactly the five-element set of spec section
4.1, and every other type is BalanceSheet. -/
theorem c6_classification_totality (accttype : String) :
    (classify accttype = Classification.IncomeStatement ∨
      classify accttype = Classification.BalanceSheet) ∧
    ¬(classify accttype = Classification.IncomeStatement ∧
      classify accttype = Classification.BalanceSheet) ∧
    (classify accttype = Classification.IncomeStatement ↔
      accttype ∈ INCOME_STATEMENT_TYPES) ∧
    (classify accttype = Classification.BalanceSheet ↔
      accttype ∉ INCOME_STATEMENT_TYPES) := by
  by_cases h : accttype ∈ INCOME_STATEMENT_TYPES
  · have hb : is_balance_sheet_account accttype = false := by
      simp [is_balance_sheet_account, h]
    simp [classify, hb, h]
  · have hb : is_balance_sheet_account accttype = true := by
      simp [is_balance_sheet_account, h]
    simp [classify, hb, h]

/-! ## Lemmas about the Python-dict model -/

theorem pyLookup_pyDictSet {α : Type} (d : List (String × α)) (k k2 : String) (v : α) :
    pyLookup (pyDictSet d k v) k2 = if k2 = k then some v else pyLookup d k2 := by
  induction d with
  | nil =>
    by_cases h : k2 = k
    · subst h; simp [pyDictSet, pyLookup]
    · have h2 : ¬(k = k2) := fun hh => h hh.symm
      simp [pyDictSet, pyLookup, h, h2]
  | cons e rest ih =>
    obtain ⟨k0, v0⟩ := e
    by_cases h0 : k0 = k
    · subst h0
      by_cases h2 : k2 = k0
      · subst h2; simp [pyDictSet, pyLookup]
      · have h2s : ¬(k0 = k2) := fun hh => h2 hh.symm
        simp [pyDictSet, pyLookup, h2, h2s]
    · by_cases h2 : k0 = k2
      · subst h2
        simp [pyDictSet, pyLookup, h0]
      · simp [pyDictSet, pyLookup, h0, h2, ih]

theorem pyLookup_pyDictSetMany_isSome {α : Type} (entries : List (String × α)) :
    ∀ (d : List (String × α)) (k : String),
      (pyLookup (pyDictSetMany d entries) k).isSome = true →
        k ∈ entries.map Prod.fst ∨ (pyLookup d k).isSome = true := by
  induction entries with
  | nil => intro d k h; exact Or.inr h
  | cons e rest ih =>
    intro d k h
    obtain ⟨ke, ve⟩ := e
    have h2 := ih (pyDictSet d ke ve) k h
    rcases h2 with h2 | h2
    · exact Or.inl (by simp [h2])
    · rw [pyLookup_pyDictSet] at h2
      by_cases hk : k = ke
      · exact Or.inl (by simp [hk])
      · rw [if_neg hk] at h2
        exact Or.inr h2

theorem pyLookup_pyDictSetMany_not_mem {α : Type} (entries : List (String × α)) :
    ∀ (d : List (String × α)) (k : String), k ∉ entries.map Prod.fst →
      pyLookup (pyDictSetMany d entries) k = pyLookup d k := by
  induction entries with
  | nil => intro d k _; rfl
  | cons e rest ih =>
    intro d k hk
    obtain ⟨ke, ve⟩ := e
    have hne : k ≠ ke := by
      intro h
      exact hk (by simp [h])
    have hrest : k ∉ rest.map Prod.fst := by
      intro h
      exact hk (by simp [h])
    rw [pyDictSetMany, List.foldl_cons]
    have := ih (pyDictSet d ke ve) k hrest
    rw [pyDictSetMany] at this
    rw [this, pyLookup_pyDictSet, if_neg hne]

/-! ## Claim theorems C2, C4, C5, C9 -/

/-- C2.  The opening-balance term of the prefix-sum algorithm is NOT
converted at the target reporting period: the prior-balance queries of
batch_periods_refresh (server.py 2582) and batch_full_year_refresh
(2149) pass t.postingperiod to BUILTIN.CONSOLIDATE, converting each
historical transaction at its own posting-period rate, while the
dedicated cumulative Balance-Sheet queries (1355, 1150-1161) do use the
fixed target period as the claim states. -/
theorem c2_opening_balance_rate_basis :
    periods_refresh_prior_balance_query_shape.rateBasis = RateBasis.postingPeriod ∧
    full_year_refresh_prior_year_query_shape.rateBasis = RateBasis.postingPeriod ∧
    periods_refresh_prior_balance_query_shape.rateBasis ≠ RateBasis.fixedTargetPeriod ∧
    build_bs_cumulative_balance_query_shape.rateBasis = RateBasis.fixedTargetPeriod ∧
    (∀ pid : ℕ, (build_bs_query_single_period_shape (some pid)).rateBasis =
      RateBasis.fixedTargetPeriod) := by
  exact ⟨rfl, rfl, by decide, rfl, fun _ => rfl⟩

/-- C4.  Given a fresh balance cache and non-empty account and period
lists, batch_balance serves the request from cache exactly when every
requested (account, period) key under the filter partition is present;
any miss makes the whole batch fall through to recomputation (the cache
path returns none, never a partial merge). -/
theorem c4_cache_all_or_nothing (cache : List (String × ℚ))
    (accounts periods : List String) (filters_hash : String)
    (ha : accounts ≠ []) (hp : periods ≠ []) :
    ((batch_balance_from_cache cache true accounts periods filters_hash).isSome = true ↔
      ∀ a ∈ accounts, ∀ p ∈ periods,
        (pyLookup cache (mkCacheKey a p filters_hash)).isSome = true) ∧
    ((∃ a ∈ accounts, ∃ p ∈ periods,
        pyLookup cache (mkCacheKey a p filters_hash) = none) →
      batch_balance_from_cache cache true accounts periods filters_hash = none) := by
  have hmain : (batch_balance_from_cache cache true accounts periods filters_hash).isSome = true ↔
      ∀ a ∈ accounts, ∀ p ∈ periods,
        (pyLookup cache (mkCacheKey a p filters_hash)).isSome = true := by
    rw [batch_balance_from_cache]
    split
    · rename_i hcond
      simp only [Option.isSome_some, true_iff]
      simp only [Bool.and_eq_true, List.all_eq_true] at hcond
      intro a haa p hpp
      exact hcond.2 a haa p hpp
    · rename_i hcond
      simp only [Option.isSome_none, Bool.false_eq_true, false_iff]
      intro hall
      apply hcond
      simp only [Bool.and_eq_true, List.all_eq_true]
      refine ⟨⟨?_, trivial⟩, fun a haa p hpp => hall a haa p hpp⟩
      obtain ⟨a, haa⟩ := List.exists_mem_of_ne_nil accounts ha
      obtain ⟨p, hpp⟩ := List.exists_mem_of_ne_nil periods hp
      have := hall a haa p hpp
      cases cache with
      | nil => simp [pyLookup] at this
      | cons e rest => simp
  refine ⟨hmain, ?_⟩
  intro ⟨a, haa, p, hpp, hnone⟩
  cases hres : batch_balance_from_cache cache true accounts periods filters_hash with
  | none => rfl
  | some r =>
    have := hmain.mp (by rw [hres]; rfl) a haa p hpp
    rw [hnone] at this
    simp at this

/-- C4 (witness): a one-account, one-period request fully covered by a
fresh cache is served from it. -/
theorem c4_cache_all_or_nothing_witness :
    (["1000"] : List String) ≠ [] ∧ (["Jan 2025"] : List String) ≠ [] ∧
    (batch_balance_from_cache [("1000:Jan 2025::::", (2 : ℚ))] true
      ["1000"] ["Jan 2025"] ":::").isSome = true := by
  refine ⟨by decide, by decide, ?_⟩
  refine (c4_cache_all_or_nothing [("1000:Jan 2025::::", (2 : ℚ))]
    ["1000"] ["Jan 2025"] ":::" (by decide) (by decide)).1.mpr ?_
  intro a haa p hpp
  simp only [List.mem_singleton] at haa hpp
  subst haa; subst hpp
  decide

/-- C5 (counterexample).  A periods refresh is a bulk refresh, yet a
balance-cache entry written before it (key 1000:Dec 2024:::::) is still
present afterwards: batch_periods_refresh never clears balance_cache
(server.py 2458-2460, 2640-2642), unlike batch_full_year_refresh which
resets it (2031). -/
theorem c5_cache_replace_counterexample :
    pyLookup (periods_refresh_cache_effect c5OldCache c5NewEntries)
      "1000:Dec 2024:::::" = some 5 ∧
    pyLookup (full_year_refresh_cache_effect c5OldCache c5NewEntries)
      "1000:Dec 2024:::::" = none := by
  exact ⟨by decide, by decide⟩

/-- C5 (amended).  Only batch_full_year_refresh wholly replaces the
balance cache (afterwards every present key was written by that
refresh); batch_periods_refresh, batch_bs_periods and
batch_full_year_refresh_bs merge their entries into the existing cache,
so any pre-existing entry whose key they do not rewrite survives with
its old value. -/
theorem c5_cache_replace_amended :
    (∀ (old entries : List (String × ℚ)) (k : String),
      (pyLookup (full_year_refresh_cache_effect old entries) k).isSome = true →
        k ∈ entries.map Prod.fst) ∧
    (∀ (old entries : List (String × ℚ)) (k : String) (v : ℚ),
      pyLookup old k = some v → k ∉ entries.map Prod.fst →
        pyLookup (periods_refresh_cache_effect old entries) k = some v) ∧
    (∀ (old entries : List (String × ℚ)) (k : String) (v : ℚ),
      pyLookup old k = some v → k ∉ entries.map Prod.fst →
        pyLookup (bs_periods_cache_effect old entries) k = some v) ∧
    (∀ (old entries : List (String × ℚ)) (k : String) (v : ℚ),
      pyLookup old k = some v → k ∉ entries.map Prod.fst →
        pyLookup (full_year_refresh_bs_cache_effect old entries) k = some v) := by
  refine ⟨?_, ?_, ?_, ?_⟩
  · intro old entries k h
    rw [full_year_refresh_cache_effect] at h
    rcases pyLookup_pyDictSetMany_isSome entries [] k h with h2 | h2
    · exact h2
    · simp [pyLookup] at h2
  · intro old entries k v hv hk
    rw [periods_refresh_cache_effect, pyLookup_pyDictSetMany_not_mem entries old k hk, hv]
  · intro old entries k v hv hk
    rw [bs_periods_cache_effect, pyLookup_pyDictSetMany_not_mem entries old k hk, hv]
  · intro old entries k v hv hk
    rw [full_year_refresh_bs_cache_effect, pyLookup_pyDictSetMany_not_mem entries old k hk, hv]

/-- C5 (witness): the amended theorem applied to the concrete old cache
and refresh entries. -/
theorem c5_cache_replace_amended_witness :
    pyLookup c5OldCache "1000:Dec 2024:::::" = some 5 ∧
    "1000:Dec 2024:::::" ∉ c5NewEntries.map Prod.fst ∧
    pyLookup (periods_refresh_cache_effect c5OldCache c5NewEntries)
      "1000:Dec 2024:::::" = some 5 := by
  refine ⟨by decide, by decide, ?_⟩
  exact c5_cache_replace_amended.2.1 c5OldCache c5NewEntries
    "1000:Dec 2024:::::" 5 (by decide) (by decide)

/-- C9 (counterexample).  build_bs_query_single_period is a cumulative
Balance-Sheet query shape, yet it applies no sign flip: the Liability
type AcctPay gets multiplier 1, not -1 (server.py 1167-1189 sum the
consolidated amount with no CASE). -/
theorem c9_sign_flip_counterexample :
    (build_bs_query_single_period_shape (some 123)).signMultiplier "AcctPay" = 1 ∧
    ¬((1 : ℤ) = -1) ∧
    "AcctPay" ∈ SIGN_FLIP_TYPES := by
  exact ⟨rfl, by decide, by decide⟩

/-- C9 (amended).  Among the cumulative Balance-Sheet query shapes, only
build_bs_multi_period_query sign-flips rows of the Liability and Equity
families (exactly the SIGN_FLIP_TYPES set, all of which classify as
Balance Sheet); build_bs_query_single_period and
build_bs_cumulative_balance_query return natural-signed sums. -/
theorem c9_sign_flip_amended :
    (∀ t : String, build_bs_multi_period_query_shape.signMultiplier t =
      if SIGN_FLIP_TYPES.contains t then -1 else 1) ∧
    (∀ t ∈ SIGN_FLIP_TYPES, is_balance_sheet_account t = true) ∧
    (∀ (pid : Option ℕ) (t : String),
      (build_bs_query_single_period_shape pid).signMultiplier t = 1) ∧
    (∀ t : String, build_bs_cumulative_balance_query_shape.signMultiplier t = 1) := by
  refine ⟨fun t => rfl, by decide, ?_, fun t => rfl⟩
  intro pid t
  cases pid <;> rfl

/-- C9 (witness): the amended theorem applied to the Equity type. -/
theorem c9_sign_flip_amended_witness :
    "Equity" ∈ SIGN_FLIP_TYPES ∧ is_balance_sheet_account "Equity" = true := by
  exact ⟨by decide, c9_sign_flip_amended.2.1 "Equity" (by decide)⟩

/-! ## Lemmas about the subsidiary-hierarchy traversal -/

theorem childrenOf_subset_ids (rows : List SubRow) (p a : String)
    (h : a ∈ childrenOf rows p) : a ∈ rows.map SubRow.id := by
  simp only [childrenOf, List.mem_map, List.mem_filter] at h
  obtain ⟨r, ⟨hr, _⟩, hid⟩ := h
  exact List.mem_map.mpr ⟨r, hr, hid⟩

theorem enqueueChildren_spec (cs : List String) :
    ∀ (visited queue : List String),
      ∃ added : List String,
        (enqueueChildren visited queue cs).1 = visited ++ added ∧
        (enqueueChildren visited queue cs).2 = queue ++ added ∧
        added.Nodup ∧
        (∀ a ∈ added, a ∈ cs ∧ a ∉ visited) ∧
        (∀ c ∈ cs, c ∈ visited ++ added) := by
  induction cs with
  | nil =>
    intro visited queue
    exact ⟨[], by simp [enqueueChildren], by simp [enqueueChildren], List.nodup_nil,
      by simp, by simp⟩
  | cons c cs ih =>
    intro visited queue
    by_cases hc : c ∈ visited
    · obtain ⟨added, h1, h2, h3, h4, h5⟩ := ih visited queue
      refine ⟨added, ?_, ?_, h3, ?_, ?_⟩
      · simp only [enqueueChildren, if_pos hc]; exact h1
      · simp only [enqueueChildren, if_pos hc]; exact h2
      · exact fun a ha => ⟨List.mem_cons_of_mem c (h4 a ha).1, (h4 a ha).2⟩
      · intro x hx
        rcases List.mem_cons.mp hx with hx | hx
        · exact List.mem_append.mpr (Or.inl (hx ▸ hc))
        · exact h5 x hx
    · obtain ⟨added, h1, h2, h3, h4, h5⟩ := ih (visited ++ [c]) (queue ++ [c])
      have hcadd : c ∉ added := by
        intro hmem
        exact (h4 c hmem).2 (by simp)
      refine ⟨c :: added, ?_, ?_, ?_, ?_, ?_⟩
      · simp only [enqueueChildren, if_neg hc]
        rw [h1, List.append_assoc]
        rfl
      · simp only [enqueueChildren, if_neg hc]
        rw [h2, List.append_assoc]
        rfl
      · exact List.nodup_cons.mpr ⟨hcadd, h3⟩
      · intro a ha
        rcases List.mem_cons.mp ha with ha | ha
        · exact ⟨ha ▸ List.mem_cons_self c cs, ha ▸ hc⟩
        · have := h4 a ha
          refine ⟨List.mem_cons_of_mem c this.1, fun hav => this.2 ?_⟩
          exact List.mem_append.mpr (Or.inl hav)
      · intro x hx
        rcases List.mem_cons.mp hx with hx | hx
        · subst hx
          exact List.mem_append.mpr (Or.inr (List.mem_cons_self x added))
        · have := h5 x hx
          rcases List.mem_append.mp this with h | h
          · rcases List.mem_append.mp h with h | h
            · exact List.mem_append.mpr (Or.inl h)
            · simp only [List.mem_singleton] at h
              exact List.mem_append.mpr (Or.inr (h ▸ List.mem_cons_self c added))
          · exact List.mem_append.mpr (Or.inr (List.mem_cons_of_mem c h))

theorem bfsMeasure_step (rows : List SubRow) (visited rest : List String) (c : String)
    (added : List String) (hnd : added.Nodup)
    (hsub : ∀ a ∈ added, a ∈ rows.map SubRow.id ∧ a ∉ visited) :
    bfsMeasure rows (visited ++ added) (rest ++ added) + 1 =
      bfsMeasure rows visited (c :: rest) := by
  classical
  have hBsub : added.toFinset ⊆ (rows.map SubRow.id).toFinset \ visited.toFinset := by
    intro x hx
    rw [List.mem_toFinset] at hx
    have := hsub x hx
    rw [Finset.mem_sdiff, List.mem_toFinset, List.mem_toFinset]
    exact this
  have hBcard : added.toFinset.card = added.length := List.toFinset_card_of_nodup hnd
  have hunion : (visited ++ added).toFinset = visited.toFinset ∪ added.toFinset := by
    simp [List.toFinset_append]
  have hsd : (rows.map SubRow.id).toFinset \ (visited.toFinset ∪ added.toFinset) =
      ((rows.map SubRow.id).toFinset \ visited.toFinset) \ added.toFinset := by
    rw [sdiff_sdiff]
    rfl
  have hcard : (((rows.map SubRow.id).toFinset \ visited.toFinset) \ added.toFinset).card =
      ((rows.map SubRow.id).toFinset \ visited.toFinset).card - added.toFinset.card :=
    Finset.card_sdiff hBsub
  have hle : added.toFinset.card ≤ ((rows.map SubRow.id).toFinset \ visited.toFinset).card :=
    Finset.card_le_card hBsub
  simp only [bfsMeasure, hunion, hsd, hcard, hBcard, List.length_append, List.length_cons]
  omega

theorem bfsLoop_invariant (rows : List SubRow) :
    ∀ (fuel : ℕ) (visited queue : List String),
      bfsMeasure rows visited queue ≤ fuel →
      (∀ m ∈ visited, m ∈ queue ∨ ∀ c ∈ childrenOf rows m, c ∈ visited) →
      (∀ q ∈ queue, q ∈ visited) →
      (∀ x ∈ visited, x ∈ bfsLoop rows fuel visited queue) ∧
      (∀ m ∈ bfsLoop rows fuel visited queue, ∀ c ∈ childrenOf rows m,
        c ∈ bfsLoop rows fuel visited queue) := by
  intro fuel
  induction fuel with
  | zero =>
    intro visited queue hmu hinv hqv
    cases queue with
    | nil =>
      refine ⟨fun x hx => hx, fun m hm c hc => ?_⟩
      rcases hinv m hm with h | h
      · exact absurd h (List.not_mem_nil m)
      · exact h c hc
    | cons c rest =>
      exfalso
      simp only [bfsMeasure, List.length_cons] at hmu
      omega
  | succ n ih =>
    intro visited queue hmu hinv hqv
    cases queue with
    | nil =>
      refine ⟨fun x hx => hx, fun m hm c hc => ?_⟩
      rcases hinv m hm with h | h
      · exact absurd h (List.not_mem_nil m)
      · exact h c hc
    | cons c rest =>
      obtain ⟨added, hv, hq, hnd, hmem, hcov⟩ :=
        enqueueChildren_spec (childrenOf rows c) visited rest
      have hrun : bfsLoop rows (n + 1) visited (c :: rest) =
          bfsLoop rows n (visited ++ added) (rest ++ added) := by
        simp only [bfsLoop]
        rw [hv, hq]
      have hsub : ∀ a ∈ added, a ∈ rows.map SubRow.id ∧ a ∉ visited := by
        intro a ha
        have := hmem a ha
        exact ⟨childrenOf_subset_ids rows c a this.1, this.2⟩
      have hmu2 : bfsMeasure rows (visited ++ added) (rest ++ added) ≤ n := by
        have := bfsMeasure_step rows visited rest c added hnd hsub
        omega
      have hinv2 : ∀ m ∈ visited ++ added,
          m ∈ rest ++ added ∨ ∀ k ∈ childrenOf rows m, k ∈ visited ++ added := by
        intro m hm
        rcases List.mem_append.mp hm with hm | hm
        · rcases hinv m hm with h | h
          · rcases List.mem_cons.mp h with h | h
            · subst h
              exact Or.inr hcov
            · exact Or.inl (List.mem_append.mpr (Or.inl h))
          · exact Or.inr (fun k hk => List.mem_append.mpr (Or.inl (h k hk)))
        · exact Or.inl (List.mem_append.mpr (Or.inr hm))
      have hqv2 : ∀ q ∈ rest ++ added, q ∈ visited ++ added := by
        intro q hqq
        rcases List.mem_append.mp hqq with h | h
        · exact List.mem_append.mpr (Or.inl (hqv q (List.mem_cons_of_mem c h)))
        · exact List.mem_append.mpr (Or.inr h)
      have hmain := ih (visited ++ added) (rest ++ added) hmu2 hinv2 hqv2
      rw [hrun]
      exact ⟨fun x hx => hmain.1 x (List.mem_append.mpr (Or.inl hx)), hmain.2⟩

theorem mem_pyDictKeysOfRows_aux (rows : List SubRow) :
    ∀ (acc : List String) (x : String),
      (x ∈ rows.foldl (fun acc r => if r.id ∈ acc then acc else acc ++ [r.id]) acc ↔
        x ∈ acc ∨ x ∈ rows.map SubRow.id) := by
  induction rows with
  | nil => intro acc x; simp
  | cons r rs ih =>
    intro acc x
    simp only [List.foldl_cons, List.map_cons, List.mem_cons]
    by_cases h : r.id ∈ acc
    · rw [if_pos h, ih acc x]
      constructor
      · intro hx
        rcases hx with hx | hx
        · exact Or.inl hx
        · exact Or.inr (Or.inr hx)
      · intro hx
        rcases hx with hx | hx | hx
        · exact Or.inl hx
        · exact Or.inl (hx ▸ h)
        · exact Or.inr hx
    · rw [if_neg h, ih (acc ++ [r.id]) x]
      constructor
      · intro hx
        rcases hx with hx | hx
        · rcases List.mem_append.mp hx with hx | hx
          · exact Or.inl hx
          · simp only [List.mem_singleton] at hx
            exact Or.inr (Or.inl hx)
        · exact Or.inr (Or.inr hx)
      · intro hx
        rcases hx with hx | hx | hx
        · exact Or.inl (List.mem_append.mpr (Or.inl hx))
        · exact Or.inl (List.mem_append.mpr (Or.inr (by simp [hx])))
        · exact Or.inr hx

theorem mem_pyDictKeysOfRows (rows : List SubRow) (x : String) :
    x ∈ pyDictKeysOfRows rows ↔ x ∈ rows.map SubRow.id := by
  rw [pyDictKeysOfRows, mem_pyDictKeysOfRows_aux rows [] x]
  simp

/-! ## Claim theorem C7 -/

/-- C7.  For a non-root target the computed hierarchy contains the
target and is closed under the child-of relation of the subsidiary
table (no descendant of a member is excluded); for the root target
(parent null) the hierarchy is exactly the set of all subsidiary ids in
the table, including elimination subsidiaries. -/
theorem c7_hierarchy_closure (rows : List SubRow) (target : String) :
    (isRootTarget rows target = false →
      target ∈ get_subsidiaries_in_hierarchy rows target ∧
      ∀ m ∈ get_subsidiaries_in_hierarchy rows target, ∀ r ∈ rows,
        r.parent = some m → r.id ∈ get_subsidiaries_in_hierarchy rows target) ∧
    (isRootTarget rows target = true →
      ∀ x, x ∈ get_subsidiaries_in_hierarchy rows target ↔ x ∈ rows.map SubRow.id) := by
  constructor
  · intro hroot
    have hH : get_subsidiaries_in_hierarchy rows target =
        bfsLoop rows (rows.length + 1) [target] [target] := by
      rw [get_subsidiaries_in_hierarchy, if_neg (by rw [hroot]; exact Bool.false_ne_true)]
    have hmu : bfsMeasure rows [target] [target] ≤ rows.length + 1 := by
      have h1 : ((rows.map SubRow.id).toFinset \ [target].toFinset).card ≤
          (rows.map SubRow.id).toFinset.card :=
        Finset.card_le_card (Finset.sdiff_subset)
      have h2 : (rows.map SubRow.id).toFinset.card ≤ (rows.map SubRow.id).length :=
        rows.map SubRow.id |>.toFinset_card_le
      simp only [bfsMeasure, List.length_singleton]
      rw [List.length_map] at h2
      omega
    have hinv : ∀ m ∈ [target], m ∈ [target] ∨
        ∀ c ∈ childrenOf rows m, c ∈ [target] := fun m hm => Or.inl hm
    have hqv : ∀ q ∈ ([target] : List String), q ∈ [target] := fun q hq => hq
    have hmain := bfsLoop_invariant rows (rows.length + 1) [target] [target] hmu hinv hqv
    rw [hH]
    refine ⟨hmain.1 target (List.mem_singleton_self target), ?_⟩
    intro m hm r hr hp
    apply hmain.2 m hm
    simp only [childrenOf, List.mem_map, List.mem_filter]
    exact ⟨r, ⟨hr, by simp [hp]⟩, rfl⟩
  · intro hroot x
    rw [get_subsidiaries_in_hierarchy, if_pos hroot]
    exact mem_pyDictKeysOfRows rows x

/-- C7 (witness): in the concrete three-row table, the hierarchy of the
non-root subsidiary 2 contains 2 itself and its elimination child 3. -/
theorem c7_hierarchy_closure_witness :
    "2" ∈ get_subsidiaries_in_hierarchy c7Rows "2" ∧
    "3" ∈ get_subsidiaries_in_hierarchy c7Rows "2" := by
  have h := (c7_hierarchy_closure c7Rows "2").1 (by decide)
  exact ⟨h.1, h.2 "2" h.1 ⟨"3", some "2", true⟩ (by decide) rfl⟩

/-! ## Lemmas about zero-fill and name resolution -/

theorem pyLookup_append_left {α : Type} (m1 m2 : List (String × α)) (k : String)
    (h : (pyLookup m1 k).isSome = true) : pyLookup (m1 ++ m2) k = pyLookup m1 k := by
  induction m1 with
  | nil => simp [pyLookup] at h
  | cons e rest ih =>
    obtain ⟨k0, v0⟩ := e
    by_cases hk : k0 = k
    · simp [pyLookup, hk]
    · simp only [pyLookup, if_neg hk] at h
      simp only [List.cons_append, pyLookup, if_neg hk]
      exact ih h

theorem pyLookup_append_right {α : Type} (m1 m2 : List (String × α)) (k : String)
    (h : pyLookup m1 k = none) : pyLookup (m1 ++ m2) k = pyLookup m2 k := by
  induction m1 with
  | nil => rfl
  | cons e rest ih =>
    obtain ⟨k0, v0⟩ := e
    by_cases hk : k0 = k
    · simp [pyLookup, hk] at h
    · simp only [pyLookup, if_neg hk] at h
      simp only [List.cons_append, pyLookup, if_neg hk]
      exact ih h

theorem zero_fill_account_mono (periods : List String) :
    ∀ (pmap : List (String × ℚ)) (k : String),
      (pyLookup pmap k).isSome = true →
      (pyLookup (zero_fill_account pmap periods) k).isSome = true := by
  induction periods with
  | nil => intro pmap k h; exact h
  | cons p ps ih =>
    intro pmap k h
    rw [zero_fill_account]
    apply ih
    by_cases hp : (pyLookup pmap p).isSome = true
    · rw [if_pos hp]; exact h
    · rw [if_neg hp, pyLookup_append_left pmap [(p, 0)] k h]
      exact h

theorem zero_fill_account_complete (periods : List String) :
    ∀ (pmap : List (String × ℚ)) (p : String), p ∈ periods →
      (pyLookup (zero_fill_account pmap periods) p).isSome = true := by
  induction periods with
  | nil => intro pmap p h; exact absurd h (List.not_mem_nil p)
  | cons q qs ih =>
    intro pmap p hp
    rw [zero_fill_account]
    rcases List.mem_cons.mp hp with hpq | hp2
    · subst hpq
      apply zero_fill_account_mono qs
      by_cases hh : (pyLookup pmap p).isSome = true
      · rw [if_pos hh]; exact hh
      · have hnone : pyLookup pmap p = none :=
          Option.not_isSome_iff_eq_none.mp (by simpa using hh)
        rw [if_neg hh, pyLookup_append_right pmap [(p, 0)] p hnone]
        simp [pyLookup]
    · exact ih _ p hp2

theorem zero_fill_not_mem (as : List String) (periods : List String) :
    ∀ (bal : List (String × List (String × ℚ))) (a : String), a ∉ as →
      pyLookup (zero_fill as periods bal) a = pyLookup bal a := by
  induction as with
  | nil => intro bal a _; rfl
  | cons a0 rest ih =>
    intro bal a ha
    have hne : a ≠ a0 := fun h => ha (h ▸ List.mem_cons_self a0 rest)
    have hrest : a ∉ rest := fun h => ha (List.mem_cons_of_mem a0 h)
    rw [zero_fill, ih _ a hrest, pyLookup_pyDictSet, if_neg hne]

theorem zero_fill_complete (accounts periods : List String) :
    ∀ (bal : List (String × List (String × ℚ))) (a p : String),
      a ∈ accounts → p ∈ periods →
      ∃ pm, pyLookup (zero_fill accounts periods bal) a = some pm ∧
        (pyLookup pm p).isSome = true := by
  induction accounts with
  | nil => intro bal a p ha _; exact absurd ha (List.not_mem_nil a)
  | cons a0 rest ih =>
    intro bal a p ha hp
    rw [zero_fill]
    rcases List.mem_cons.mp ha with ha0 | ha2
    · subst ha0
      by_cases hmem : a ∈ rest
      · exact ih _ a p hmem hp
      · rw [zero_fill_not_mem rest periods _ a hmem, pyLookup_pyDictSet, if_pos rfl]
        exact ⟨_, rfl, zero_fill_account_complete periods _ p hp⟩
    · exact ih _ a p ha2 hp

theorem is_balance_sheet_account_of_pl {t : String}
    (h : t ∈ INCOME_STATEMENT_TYPES) : is_balance_sheet_account t = false := by
  have hc : INCOME_STATEMENT_TYPES.contains t = true := List.elem_eq_true_of_mem h
  simp [is_balance_sheet_account, hc, h]

/-! ## Claim theorems C8 and C10 -/

/-- C8 (counterexample).  The period name Foo 2025 has no matching row
in the remote period table, yet calculate_period_end_date returns None
(no month named foo, server.py 156-171) and the period_info fallback of
batch_balance produces no entry at all (3146-3153) — no end date is
computed, contradicting the claim as stated for that name. -/
theorem c8_period_fallback_counterexample :
    calculate_period_end_date "Foo 2025" = none ∧
    batch_balance_period_info none none "Foo 2025" = none := by
  constructor
  · rfl
  · rfl

/-- C8 (amended).  For every requested period name that parses as a
recognized month plus a year between 1 and 9999, a missing remote row
still yields the locally computed end date (the last calendar day of
the named month), the period proceeds with a null id, the
single-period Balance-Sheet query built over a null id passes the
amount through unconverted, and the zero-fill of batch_balance gives
every requested (account, period) pair a value, so the request
succeeds; names that do not parse yield no end date (the period is
silently dropped and zero-filled), never a thrown error. -/
theorem c8_period_fallback_amended (name : String) (m : ℕ) (y : ℤ)
    (hparse : periodNameParse name = some (m, y)) (hy1 : 1 ≤ y) (hy2 : y ≤ 9999) :
    calculate_period_end_date name = some (period_end_date_string m y) ∧
    batch_balance_period_info none none name =
      some ⟨period_end_date_string m y, none⟩ ∧
    (∀ info, batch_balance_period_info none none name = some info →
      info.id = none ∧
      (build_bs_query_single_period_shape info.id).rateBasis = RateBasis.unconverted) ∧
    (∀ (accounts periods : List String) (computed : List (String × List (String × ℚ))),
      ∀ a ∈ accounts, ∀ p ∈ periods,
        ∃ pm, pyLookup (zero_fill accounts periods computed) a = some pm ∧
          (pyLookup pm p).isSome = true) := by
  have hcalc : calculate_period_end_date name = some (period_end_date_string m y) := by
    rw [calculate_period_end_date, hparse]
    exact if_pos ⟨hy1, hy2⟩
  have hinfo : batch_balance_period_info none none name =
      some ⟨period_end_date_string m y, none⟩ := by
    rw [batch_balance_period_info]
    rw [if_neg (by simp [pyTruthyStr])]
    rw [hcalc]
  refine ⟨hcalc, hinfo, ?_, fun accounts periods computed a ha p hp =>
    zero_fill_complete accounts periods computed a p ha hp⟩
  intro info h
  rw [hinfo] at h
  have : info = ⟨period_end_date_string m y, none⟩ := by
    exact (Option.some_inj.mp h).symm
  rw [this]
  exact ⟨rfl, rfl⟩

/-- C8 (witness): the amended theorem applied to Jan 2025, whose parse
is month 1 and year 2025 and whose computed end date is 01/31/2025. -/
theorem c8_period_fallback_amended_witness :
    periodNameParse "Jan 2025" = some (1, 2025) ∧
    calculate_period_end_date "Jan 2025" = some "01/31/2025" := by
  have hp : periodNameParse "Jan 2025" = some (1, 2025) := by decide
  refine ⟨hp, ?_⟩
  have h := (c8_period_fallback_amended "Jan 2025" 1 2025 hp (by decide) (by decide)).1
  rw [h]
  rfl

/-- C10.  build_full_year_bs_query is bound nowhere in server.py (or
anywhere else in the repository), so with skip_bs false the
Balance-Sheet branch of batch_full_year_refresh always raises NameError
at its first statement (server.py 2083); the except at 2206-2210
swallows it and the endpoint returns HTTP 200 whose balances are
exactly the P-and-L balances — and since the P-and-L query filters to
a.accttype IN PL_TYPES (line 1783), every account in the response is an
Income-Statement account, never a Balance-Sheet one. -/
theorem c10_missing_bs_builder (plRows : List PLRow)
    (bsData : List (String × List (String × ℚ)))
    (hPL : ∀ r ∈ plRows, r.accttype ∈ PL_TYPES) :
    ("build_full_year_bs_query" ∉ serverGlobalNames) ∧
    (∃ e, batch_full_year_refresh_bs_branch bsData = Except.error e) ∧
    (batch_full_year_refresh_model plRows false bsData).httpOk = true ∧
    (batch_full_year_refresh_model plRows false bsData).balances =
      pl_balances_of_rows plRows ∧
    (∀ a, (pyLookup (pl_balances_of_rows plRows) a).isSome = true →
      ∃ r ∈ plRows, r.number = a ∧ is_balance_sheet_account r.accttype = false) := by
  have hnot : "build_full_year_bs_query" ∉ serverGlobalNames := by decide
  have hbranch : ∃ e, batch_full_year_refresh_bs_branch bsData = Except.error e := by
    refine ⟨"NameError: name build_full_year_bs_query is not defined", ?_⟩
    rw [batch_full_year_refresh_bs_branch, python_global_lookup]
    rw [if_neg (by decide)]
    rfl
  obtain ⟨e, he⟩ := hbranch
  have hmodel : batch_full_year_refresh_model plRows false bsData =
      ⟨true, pl_balances_of_rows plRows⟩ := by
    rw [batch_full_year_refresh_model]
    simp only [if_neg (Bool.false_ne_true)]
    rw [he]
  refine ⟨hnot, ⟨e, he⟩, by rw [hmodel], by rw [hmodel], ?_⟩
  intro a ha
  rw [pl_balances_of_rows] at ha
  rcases pyLookup_pyDictSetMany_isSome _ [] a ha with hmem | hmem
  · rw [List.map_map] at hmem
    simp only [List.mem_map, Function.comp] at hmem
    obtain ⟨r, hr, hra⟩ := hmem
    exact ⟨r, hr, hra, is_balance_sheet_account_of_pl (hPL r hr)⟩
  · simp [pyLookup] at hmem

/-- C10 (witness): the theorem applied to a single Income row. -/
theorem c10_missing_bs_builder_witness :
    (∀ r ∈ c10PLRows, r.accttype ∈ PL_TYPES) ∧
    (batch_full_year_refresh_model c10PLRows false []).httpOk = true := by
  have hPL : ∀ r ∈ c10PLRows, r.accttype ∈ PL_TYPES := by
    intro r hr
    simp only [c10PLRows, List.mem_singleton] at hr
    rw [hr]
    decide
  exact ⟨hPL, (c10_missing_bs_builder c10PLRows [] hPL).2.2.1⟩
